import Mathlib

/-!
# api-interactor: wire codecs and the generic resource interactor

A shallow embedding of `apiTypes.go`, `interactions.go` and `interactor.go`.

* Go strings that are scanned character by character (the inputs of the
  `UnmarshalJSON` codecs) are `List Char`: the sequence of runes that Go's
  `strings` and `regexp` packages see.  URLs, ids and paths, which are only
  concatenated and compared, are `String`.
* A Go `error` is a value of `GoError`; the `error` interface is
  `Option GoError`, with `none` for `nil`.
* A call that can end in a run-time panic returns `Outcome` or `Run`.
* The HTTP peer, `encoding/json` and `time` are libraries outside the
  repository; they are parameters (`World.server`, `Json`).  What
  `json.Unmarshal` does with a struct of the package, calling the package's
  own `UnmarshalJSON` methods, is part of the embedding.
* A pointer is the address of a cell of `World.heap`.
-/

namespace Interactor

/-! ## Errors -/

/-- Go `error` values built by this package and by the libraries it calls. -/
inductive GoError where
  /-- The package variable `errUnauthorized = errors.New("request not authorized")`. -/
  | errUnauthorized
  /-- The package variable `errNotFound = errors.New("object not found")`. -/
  | errNotFound
  /-- A `fmt.Errorf` without the `%w` verb: a fresh error that wraps nothing. -/
  | errorf (text : String)
  /-- A `fmt.Errorf(text ++ "%w", inner)`: `Unwrap` yields `inner`. -/
  | wrapf (text : String) (inner : GoError)
  /-- A `*strconv.NumError` of `strconv.ParseInt`. -/
  | numError (num : List Char) (reason : String)
  /-- An error made by a library (transport, `encoding/json`, body reader). -/
  | external (text : String)
  deriving DecidableEq

/-- The `Error()` text. -/
def GoError.Error : GoError → String
  | .errUnauthorized => "request not authorized"
  | .errNotFound => "object not found"
  | .errorf text => text
  | .wrapf text inner => text ++ inner.Error
  | .numError num reason => "strconv.ParseInt: parsing \"" ++ String.mk num ++ "\": " ++ reason
  | .external text => text

/-- The `errors.Is(err, target)` test for one of the two package sentinels as
target: compare, then follow `Unwrap`. -/
def errorsIs : GoError → GoError → Bool
  | .wrapf text inner, target =>
      decide (GoError.wrapf text inner = target) || errorsIs inner target
  | e, target => decide (e = target)

/-- The result of a call that may return a value, return an error, or panic. -/
inductive Outcome (α : Type) where
  | ok (value : α)
  | error (err : GoError)
  | panic (msg : String)
  deriving DecidableEq

/-! ## `strings.Trim` -/

/-- Go `strings.TrimLeft(s, cutset)`. -/
def trimLeft (s cutset : List Char) : List Char :=
  s.dropWhile (fun c => decide (c ∈ cutset))

/-- Go `strings.TrimRight(s, cutset)`. -/
def trimRight (s cutset : List Char) : List Char :=
  (s.reverse.dropWhile (fun c => decide (c ∈ cutset))).reverse

/-- Go `strings.Trim(s, cutset)`: all leading and all trailing runes of `s`
that occur in `cutset` are removed. -/
def trim (s cutset : List Char) : List Char :=
  trimLeft (trimRight s cutset) cutset

/-! ## `strconv.ParseInt(s, 10, 64)` -/

/-- The value of a decimal digit, `none` for any other rune. -/
def digitVal (c : Char) : Option Nat :=
  if '0' ≤ c ∧ c ≤ '9' then some (c.toNat - '0'.toNat) else none

/-- The magnitude of a run of decimal digits, `none` when a rune is not a digit. -/
def parseDigits : List Char → Nat → Option Nat
  | [], acc => some acc
  | c :: cs, acc =>
    match digitVal c with
    | some d => parseDigits cs (acc * 10 + d)
    | none => none

/-- Go `strconv.ParseInt(s, 10, 64)`. -/
def ParseInt (s : List Char) : Except GoError Int :=
  match s with
  | [] => .error (.numError s "invalid syntax")
  | c :: cs =>
    let neg := decide (c = '-')
    let body := if c = '+' ∨ c = '-' then cs else s
    match body with
    | [] => .error (.numError s "invalid syntax")
    | _ :: _ =>
      match parseDigits body 0 with
      | none => .error (.numError s "invalid syntax")
      | some mag =>
        if neg then
          if mag ≤ 2 ^ 63 then .ok (-(mag : Int)) else .error (.numError s "value out of range")
        else
          if mag < 2 ^ 63 then .ok (mag : Int) else .error (.numError s "value out of range")

/-! ## The regular expression of the duration codec -/

/-- The fragment of Go `regexp` syntax the duration pattern is written in. -/
inductive Re where
  /-- A literal rune. -/
  | chr (c : Char)
  /-- The class `[0-9]`. -/
  | digit
  /-- The dot: any rune but a newline. -/
  | anyChar
  /-- Concatenation. -/
  | seq (a b : Re)
  /-- Greedy `a?`. -/
  | opt (a : Re)
  /-- Capturing group number `idx`. -/
  | group (idx : Nat) (a : Re)
  deriving DecidableEq

/-- Backtracking match of `r` at the head of `s`, `k` being the rest of the
match; alternatives are tried in the order of preference of Go's
leftmost-first semantics (a greedy `?` first tries its operand).  `caps`
holds the text of each group; a group that took no part keeps `[]`. -/
def Re.run : Re → List Char → List (List Char) →
    (List Char → List (List Char) → Option (List (List Char))) → Option (List (List Char))
  | .chr c, s, caps, k =>
    match s with
    | x :: xs => if x = c then k xs caps else none
    | [] => none
  | .digit, s, caps, k =>
    match s with
    | x :: xs => if '0' ≤ x ∧ x ≤ '9' then k xs caps else none
    | [] => none
  | .anyChar, s, caps, k =>
    match s with
    | x :: xs => if x = '\n' then none else k xs caps
    | [] => none
  | .seq a b, s, caps, k => a.run s caps (fun s1 caps1 => b.run s1 caps1 k)
  | .opt a, s, caps, k =>
    match a.run s caps k with
    | some r => some r
    | none => k s caps
  | .group idx a, s, caps, k =>
    a.run s caps (fun s1 caps1 => k s1 (caps1.set idx (s.take (s.length - s1.length))))

/-- `x{1,2}`. -/
def Re.oneOrTwo (a : Re) : Re := .seq a (.opt a)

/-- `x{2}`. -/
def Re.two (a : Re) : Re := .seq a a

/-- `x{3}`. -/
def Re.three (a : Re) : Re := .seq a (.seq a a)

/-- The pattern `(-?[0-9]{1,2}):([0-9]{2}):([0-9]{2})(.([0-9]{3}))?`, group 0
being the whole match.  It has no `^` and no `$`, and its dot is not escaped. -/
def relTimeRe : Re :=
  .group 0
    (.seq (.group 1 (.seq (.opt (.chr '-')) (Re.oneOrTwo .digit)))
    (.seq (.chr ':')
    (.seq (.group 2 (Re.two .digit))
    (.seq (.chr ':')
    (.seq (.group 3 (Re.two .digit))
          (.opt (.group 4 (.seq .anyChar (.group 5 (Re.three .digit))))))))))

/-- Go `re.FindStringSubmatch(s)` for a pattern with `n` groups beside group
0: the groups of the leftmost match, `none` (the nil slice) when the pattern
matches nowhere in `s`. -/
def FindStringSubmatch (re : Re) (n : Nat) : List Char → Option (List (List Char))
  | [] => re.run [] (List.replicate (n + 1) []) (fun _ caps => some caps)
  | c :: cs =>
    match re.run (c :: cs) (List.replicate (n + 1) []) (fun _ caps => some caps) with
    | some caps => some caps
    | none => FindStringSubmatch re n cs

/-! ## `ApiRelTime` -/

/-- Wrap-around of an integer into the range of Go's `int64`. -/
def wrap64 (x : Int) : Int := (x + 2 ^ 63) % 2 ^ 64 - 2 ^ 63

/-- `time.Millisecond`, in nanoseconds. -/
def Millisecond : Int := 1000000

/-- `time.Second`, in nanoseconds. -/
def Second : Int := 1000 * Millisecond

/-- `time.Minute`, in nanoseconds. -/
def Minute : Int := 60 * Second

/-- `time.Hour`, in nanoseconds. -/
def Hour : Int := 60 * Minute

/-- An `ApiRelTime` is a `time.Duration`: an `int64` count of nanoseconds. -/
abbrev ApiRelTime := Int

/-- Index `sm[k]` of a slice of strings: a nil slice, or an index past the
end, has no element. -/
def index (sm : Option (List (List Char))) (k : Nat) : Option (List Char) :=
  match sm with
  | none => none
  | some l => l.get? k

/-- The panic of an out-of-range index expression on the submatch slice. -/
def indexPanic (k : Nat) (sm : Option (List (List Char))) : String :=
  "runtime error: index out of range [" ++ toString k ++ "] with length " ++
    toString (sm.getD []).length

/-- `ApiRelTime.UnmarshalJSON(b)`: the value stored in the receiver on a
normal return without error; on an error return the receiver is not written.
-/
def ApiRelTime.UnmarshalJSON (b : List Char) : Outcome ApiRelTime :=
  let data := trim b ['"']
  if data = "null".data then .ok 0
  else
    let sm := FindStringSubmatch relTimeRe 5 data
    match index sm 1 with
    | none => .panic (indexPanic 1 sm)
    | some sm1 =>
    match ParseInt sm1 with
    | .error err => .error err
    | .ok h =>
    match index sm 2 with
    | none => .panic (indexPanic 2 sm)
    | some sm2 =>
    match ParseInt sm2 with
    | .error err => .error err
    | .ok m =>
    match index sm 3 with
    | none => .panic (indexPanic 3 sm)
    | some sm3 =>
    match ParseInt sm3 with
    | .error err => .error err
    | .ok s =>
    match index sm 5 with
    | none => .panic (indexPanic 5 sm)
    | some sm5 =>
    match (if sm5 ≠ [] then ParseInt sm5 else .ok 0) with
    | .error err => .error err
    | .ok ms =>
      .ok (wrap64 (wrap64 (wrap64 (wrap64 (h * Hour) + wrap64 (m * Minute))
            + wrap64 (s * Second)) + wrap64 (ms * Millisecond)))

/-- The duration in whole milliseconds. -/
def ApiRelTime.millis (a : ApiRelTime) : Int := a / Millisecond

/-! ## `Identifier` -/

/-- An `Identifier` is a Go string. -/
abbrev Identifier := List Char

/-- `Identifier.UnmarshalJSON(bts)`: the value stored in the receiver, and the
returned error, which is always `nil`. -/
def Identifier.UnmarshalJSON (bts : List Char) : Identifier × Option GoError :=
  (trim bts ['"', '\x27'], none)

/-! ## Resource types -/

/-- An `ApiTime` is a `time.Time`; only its zero value matters here, so it is
kept as a count of nanoseconds since the zero time. -/
abbrev ApiTime := Int

/-- The struct `Contest`. -/
structure Contest where
  Id : String
  Name : String
  FormalName : String
  StartTime : ApiTime
  Duration : ApiRelTime
  deriving DecidableEq

/-- The struct `Problem`. -/
structure Problem where
  Id : String
  Label : String
  Name : String
  Ordinal : Int
  deriving DecidableEq

/-- The struct `Submission`. -/
structure Submission where
  Id : String
  LanguageId : String
  ContestTime : ApiRelTime
  TeamId : String
  ProblemId : String
  ExternalId : String
  EntryPoint : String
  File : String
  deriving DecidableEq

/-- The struct `Clarification`.  The field `Time` is a pointer `*ApiTime`:
`none` when nil, else the address of a cell of `World.heap`; two values
with the same address share the cell. -/
structure Clarification where
  Id : String
  FromTeamId : String
  ToTeamId : String
  ReplyToId : String
  ProblemId : String
  Text : String
  Time : Option Nat
  ContestTime : ApiRelTime
  deriving DecidableEq

/-- The zero value `Contest{}`. -/
def Contest.zero : Contest := ⟨"", "", "", 0, 0⟩

/-- The zero value `Problem{}`. -/
def Problem.zero : Problem := ⟨"", "", "", 0⟩

/-- The zero value `Submission{}`. -/
def Submission.zero : Submission := ⟨"", "", 0, "", "", "", "", ""⟩

/-- The zero value `Clarification{}`. -/
def Clarification.zero : Clarification := ⟨"", "", "", "", "", "", none, 0⟩

/-- A non-nil value of the interface `ApiType` (and of `Submittable`, which
embeds it): one of the implementing structs of `apiTypes.go`.  A nil
interface value is `none` of `Option ApiType`.  The struct `Language`, which
`interactions.go` lists and fetches too, is declared in no file at hand and
has no constructor here. -/
inductive ApiType where
  | contest (c : Contest)
  | problem (p : Problem)
  | submission (s : Submission)
  | clarification (c : Clarification)
  deriving DecidableEq

/-- The method `Path()`. -/
def ApiType.Path : ApiType → String
  | .contest _ => "contests"
  | .problem _ => "problems"
  | .submission _ => "submissions"
  | .clarification _ => "clarifications"

/-- The method `InContest()`. -/
def ApiType.InContest : ApiType → Bool
  | .contest _ => false
  | .problem _ => true
  | .submission _ => true
  | .clarification _ => true

/-- The method `Generate()`. -/
def ApiType.Generate : ApiType → ApiType
  | .contest _ => .contest Contest.zero
  | .problem _ => .problem Problem.zero
  | .submission _ => .submission Submission.zero
  | .clarification _ => .clarification Clarification.zero

/-- The text of the verb `%T` for an interface value. -/
def typeName : Option ApiType → String
  | none => "<nil>"
  | some (.contest _) => "interactor.Contest"
  | some (.problem _) => "interactor.Problem"
  | some (.submission _) => "interactor.Submission"
  | some (.clarification _) => "interactor.Clarification"

/-! ## Transport and memory -/

/-- An HTTP request as the client sends it. -/
structure Request where
  method : String
  url : String
  contentType : String
  body : String
  deriving DecidableEq

/-- An HTTP response: the status code and the body, whose reading may fail. -/
structure Response where
  StatusCode : Int
  Body : Except GoError String

/-- The world outside the values passed around: the peer, which answers a
request in view of the requests before it, the requests sent so far, and the
cells that `*ApiTime` pointers point to. -/
structure World where
  server : List Request → Request → Except GoError Response
  log : List Request
  heap : List ApiTime

/-- One round trip of the embedded `http.Client`. -/
def World.roundTrip (w : World) (r : Request) : World × Except GoError Response :=
  ({ w with log := w.log ++ [r] }, w.server w.log r)

/-- The world after one request `r` was sent. -/
def World.sent (w : World) (r : Request) : World := { w with log := w.log ++ [r] }

/-- The struct `inter`, without its embedded `http.Client` (see `World`). -/
structure inter where
  contestId : String
  username : String
  password : String
  baseUrl : String
  deriving DecidableEq

/-- The method `i.Get(url)` of the embedded client. -/
def inter.Get (_i : inter) (w : World) (url : String) : World × Except GoError Response :=
  w.roundTrip ⟨"GET", url, "", ""⟩

/-- The method `i.Post(url, contentType, body)` of the embedded client. -/
def inter.Post (_i : inter) (w : World) (url contentType body : String) :
    World × Except GoError Response :=
  w.roundTrip ⟨"POST", url, contentType, body⟩

/-- What a call that goes through the decoders ends in: a return, with the
value and the `error`, or a panic. -/
inductive Run (α : Type) where
  | returned (world : World) (value : α) (err : Option GoError)
  | panicked (world : World) (msg : String)

/-- The world a call leaves. -/
def Run.world {α : Type} : Run α → World
  | .returned w _ _ => w
  | .panicked w _ => w

/-- The returned value and error; `none` when the call panicked. -/
def Run.result {α : Type} : Run α → Option (α × Option GoError)
  | .returned _ v e => some (v, e)
  | .panicked _ _ => none

/-- The returned error; `none` for a nil error and when the call panicked. -/
def Run.err {α : Type} : Run α → Option GoError
  | .returned _ _ e => e
  | .panicked _ _ => none

/-- The message of the panic; `none` when the call returned. -/
def Run.panicMsg {α : Type} : Run α → Option String
  | .returned _ _ _ => none
  | .panicked _ msg => some msg

/-! ## The libraries -/

/-- The functions of `encoding/json` and of `time` that the package calls,
or that `json.Unmarshal` applies to the parts of a struct. -/
structure Json where
  /-- The members of the JSON object that `data` holds, in their order, each
  with its key and the raw text of its value; the literal `null` has none.
  An error when `data` is not valid JSON or holds a value that is no object:
  `json.Unmarshal` then stores nothing. -/
  members : String → Except GoError (List (String × String))
  /-- Whether a key of an object selects the struct field with the given
  name tag: equality of the two, up to the folding of letter case. -/
  keyEq : String → String → Bool
  /-- The Go string a raw value other than `null` stores in a field of type
  `string`; an error (`*json.UnmarshalTypeError`) when it is no JSON string. -/
  stringValue : String → Except GoError String
  /-- The Go `int` a raw value other than `null` stores in a field of type
  `int`; an error (`*json.UnmarshalTypeError`) when it is no such number. -/
  intValue : String → Except GoError Int
  /-- `Decode(&temp)` with `temp []json.RawMessage`: the raw elements of the
  array the body holds. -/
  decodeRawMessages : String → Except GoError (List String)
  /-- `json.NewEncoder(buf).Encode(v)`: the text written to the buffer. -/
  encode : ApiType → Except GoError String
  /-- The raw text of the JSON value that `Decode` reads from a body and
  hands to the `UnmarshalJSON` of its target. -/
  nextValue : String → Except GoError String
  /-- `time.Parse(layout, value)`, `none` when it returns an error. -/
  timeParse : String → List Char → Option ApiTime

/-! ## `ApiTime` -/

/-- `ApiTime.UnmarshalJSON(b)` on a receiver that holds `a`: what the
receiver holds afterwards, and the returned error. -/
def ApiTime.UnmarshalJSON (J : Json) (a : ApiTime) (b : List Char) : ApiTime × Option GoError :=
  let data := trim b ['"']
  if data = "null".data then (0, none)
  else
    match J.timeParse "2006-01-02T15:04:05Z07:00" data with
    | some t => (t, none)
    | none =>
      match J.timeParse "2006-01-02T15:04:05Z07" data with
      | some t => (t, none)
      | none => (a, some (.errorf ("can not format date: " ++ String.mk data)))

/-! ## `json.Unmarshal` into the structs

`json.Unmarshal(data, &v)` visits the members of the object in `data` in
their order.  A member whose key selects no field is skipped.  A value that
does not fit a plain field leaves the field, and the first such error is
saved and returned at the end.  A field whose type has an `UnmarshalJSON`
gets the raw value through that method: its error ends the decoding at once,
and its panic is the panic of the call. -/

/-- What storing one member, or all of them, ends in. -/
inductive Stored (α : Type) where
  /-- Stored; the decoding goes on, with the type error saved so far. -/
  | go (value : α) (saved : Option GoError)
  /-- An error that ends the decoding. -/
  | stop (value : α) (err : GoError)
  /-- A panic. -/
  | panic (value : α) (msg : String)

/-- Keeping the first saved error. -/
def saveError (saved : Option GoError) (err : GoError) : Option GoError :=
  match saved with
  | none => some err
  | some e => some e

/-- A raw value stored in a field of type `string` that holds `old`. -/
def storeString (J : Json) (raw old : String) (saved : Option GoError) :
    String × Option GoError :=
  if raw = "null" then (old, saved)
  else
    match J.stringValue raw with
    | .ok s => (s, saved)
    | .error err => (old, saveError saved err)

/-- A raw value stored in a field of type `int` that holds `old`. -/
def storeInt (J : Json) (raw : String) (old : Int) (saved : Option GoError) :
    Int × Option GoError :=
  if raw = "null" then (old, saved)
  else
    match J.intValue raw with
    | .ok n => (n, saved)
    | .error err => (old, saveError saved err)

/-- One member stored in a `Contest`. -/
def Contest.store (J : Json) (c : Contest) (saved : Option GoError) (key raw : String) :
    Stored Contest :=
  if J.keyEq key "id" then
    .go { c with Id := (storeString J raw c.Id saved).1 } (storeString J raw c.Id saved).2
  else if J.keyEq key "name" then
    .go { c with Name := (storeString J raw c.Name saved).1 } (storeString J raw c.Name saved).2
  else if J.keyEq key "formal_name" then
    .go { c with FormalName := (storeString J raw c.FormalName saved).1 }
      (storeString J raw c.FormalName saved).2
  else if J.keyEq key "start_time" then
    match ApiTime.UnmarshalJSON J c.StartTime raw.data with
    | (t, none) => .go { c with StartTime := t } saved
    | (t, some err) => .stop { c with StartTime := t } err
  else if J.keyEq key "duration" then
    match ApiRelTime.UnmarshalJSON raw.data with
    | .ok d => .go { c with Duration := d } saved
    | .error err => .stop c err
    | .panic msg => .panic c msg
  else .go c saved

/-- One member stored in a `Problem`. -/
def Problem.store (J : Json) (p : Problem) (saved : Option GoError) (key raw : String) :
    Stored Problem :=
  if J.keyEq key "id" then
    .go { p with Id := (storeString J raw p.Id saved).1 } (storeString J raw p.Id saved).2
  else if J.keyEq key "label" then
    .go { p with Label := (storeString J raw p.Label saved).1 } (storeString J raw p.Label saved).2
  else if J.keyEq key "name" then
    .go { p with Name := (storeString J raw p.Name saved).1 } (storeString J raw p.Name saved).2
  else if J.keyEq key "ordinal" then
    .go { p with Ordinal := (storeInt J raw p.Ordinal saved).1 } (storeInt J raw p.Ordinal saved).2
  else .go p saved

/-- One member stored in a `Submission`. -/
def Submission.store (J : Json) (s : Submission) (saved : Option GoError) (key raw : String) :
    Stored Submission :=
  if J.keyEq key "id" then
    .go { s with Id := (storeString J raw s.Id saved).1 } (storeString J raw s.Id saved).2
  else if J.keyEq key "language_id" then
    .go { s with LanguageId := (storeString J raw s.LanguageId saved).1 }
      (storeString J raw s.LanguageId saved).2
  else if J.keyEq key "contest_time" then
    match ApiRelTime.UnmarshalJSON raw.data with
    | .ok d => .go { s with ContestTime := d } saved
    | .error err => .stop s err
    | .panic msg => .panic s msg
  else if J.keyEq key "team_id" then
    .go { s with TeamId := (storeString J raw s.TeamId saved).1 }
      (storeString J raw s.TeamId saved).2
  else if J.keyEq key "problem_id" then
    .go { s with ProblemId := (storeString J raw s.ProblemId saved).1 }
      (storeString J raw s.ProblemId saved).2
  else if J.keyEq key "external_id" then
    .go { s with ExternalId := (storeString J raw s.ExternalId saved).1 }
      (storeString J raw s.ExternalId saved).2
  else if J.keyEq key "entry_point" then
    .go { s with EntryPoint := (storeString J raw s.EntryPoint saved).1 }
      (storeString J raw s.EntryPoint saved).2
  else if J.keyEq key "file" then
    .go { s with File := (storeString J raw s.File saved).1 } (storeString J raw s.File saved).2
  else .go s saved

/-- One member stored in a `Clarification`, with the cells its pointer may
point to.  The value `null` makes the pointer `Time` nil; any other value is
decoded into the cell the pointer has, a fresh zero cell when it is nil. -/
def Clarification.store (J : Json) (ch : Clarification × List ApiTime) (saved : Option GoError)
    (key raw : String) : Stored (Clarification × List ApiTime) :=
  let c := ch.1
  let heap := ch.2
  if J.keyEq key "id" then
    .go ({ c with Id := (storeString J raw c.Id saved).1 }, heap) (storeString J raw c.Id saved).2
  else if J.keyEq key "from_team_id" then
    .go ({ c with FromTeamId := (storeString J raw c.FromTeamId saved).1 }, heap)
      (storeString J raw c.FromTeamId saved).2
  else if J.keyEq key "to_team_id" then
    .go ({ c with ToTeamId := (storeString J raw c.ToTeamId saved).1 }, heap)
      (storeString J raw c.ToTeamId saved).2
  else if J.keyEq key "reply_to_id" then
    .go ({ c with ReplyToId := (storeString J raw c.ReplyToId saved).1 }, heap)
      (storeString J raw c.ReplyToId saved).2
  else if J.keyEq key "problem_id" then
    .go ({ c with ProblemId := (storeString J raw c.ProblemId saved).1 }, heap)
      (storeString J raw c.ProblemId saved).2
  else if J.keyEq key "text" then
    .go ({ c with Text := (storeString J raw c.Text saved).1 }, heap)
      (storeString J raw c.Text saved).2
  else if J.keyEq key "time" then
    if raw = "null" then .go ({ c with Time := none }, heap) saved
    else
      let addr := c.Time.getD heap.length
      let heap1 := if c.Time = none then heap ++ [0] else heap
      match ApiTime.UnmarshalJSON J (heap1.getD addr 0) raw.data with
      | (t, none) => .go ({ c with Time := some addr }, heap1.set addr t) saved
      | (t, some err) => .stop ({ c with Time := some addr }, heap1.set addr t) err
  else if J.keyEq key "contest_time" then
    match ApiRelTime.UnmarshalJSON raw.data with
    | .ok d => .go ({ c with ContestTime := d }, heap) saved
    | .error err => .stop (c, heap) err
    | .panic msg => .panic (c, heap) msg
  else .go (c, heap) saved

/-- The members of an object stored one after the other. -/
def storeMembers {α : Type} (store : α → Option GoError → String → String → Stored α) :
    List (String × String) → α → Option GoError → Stored α
  | [], v, saved => .go v saved
  | m :: ms, v, saved =>
    match store v saved m.1 m.2 with
    | .go v1 saved1 => storeMembers store ms v1 saved1
    | .stop v1 err => .stop v1 err
    | .panic v1 msg => .panic v1 msg

/-- `json.Unmarshal(data, &v)` for a struct `v`: in `go v1 saved`, `v1` is
what `v` holds afterwards and `saved` the returned error. -/
def unmarshal {α : Type} (J : Json) (store : α → Option GoError → String → String → Stored α)
    (data : String) (v : α) : Stored α :=
  match J.members data with
  | .error err => .stop v err
  | .ok ms => storeMembers store ms v none

/-- The method `FromJSON(data)`: the receiver is a copy of the struct,
`json.Unmarshal` fills it, and it is returned together with the error. -/
def FromJSON (J : Json) (w : World) : ApiType → String → Run ApiType
  | .contest c, data =>
    match unmarshal J (Contest.store J) data c with
    | .go c1 saved => .returned w (.contest c1) saved
    | .stop c1 err => .returned w (.contest c1) (some err)
    | .panic _ msg => .panicked w msg
  | .problem p, data =>
    match unmarshal J (Problem.store J) data p with
    | .go p1 saved => .returned w (.problem p1) saved
    | .stop p1 err => .returned w (.problem p1) (some err)
    | .panic _ msg => .panicked w msg
  | .submission s, data =>
    match unmarshal J (Submission.store J) data s with
    | .go s1 saved => .returned w (.submission s1) saved
    | .stop s1 err => .returned w (.submission s1) (some err)
    | .panic _ msg => .panicked w msg
  | .clarification c, data =>
    match unmarshal J (Clarification.store J) data (c, w.heap) with
    | .go ch saved => .returned { w with heap := ch.2 } (.clarification ch.1) saved
    | .stop ch err => .returned { w with heap := ch.2 } (.clarification ch.1) (some err)
    | .panic ch msg => .panicked { w with heap := ch.2 } msg

/-! ## `interactions.go` -/

/-- Function `statusToError`. -/
def statusToError (status : Int) : Option GoError :=
  if status = 200 then none
  else if status = 401 then some .errUnauthorized
  else if status = 404 then some .errNotFound
  else some (.errorf ("invalid statuscode received: " ++ toString status))

/-- Method `inter.toPath`. -/
def toPath (i : inter) (interactor : ApiType) : String :=
  let base := if interactor.InContest then "contests/" ++ i.contestId ++ "/" else ""
  base ++ interactor.Path ++ "/"

/-- Method `inter.contestPath` (`interactor.go`). -/
def contestPath (i : inter) (path : String) : String :=
  if i.contestId ≠ "" then "contests/" ++ i.contestId ++ "/" ++ path else path

/-- The loop of `retrieve` over the raw elements: `k` is the index of the
head of the list and `ret` the slice built so far.  Every element is decoded
by `FromJSON` on the caller's `interactor`; `Generate` is not called. -/
def retrieveLoop (J : Json) (interactor : ApiType) :
    List String → Nat → List (Option ApiType) → World → Run (List (Option ApiType))
  | [], _, ret, w => .returned w ret none
  | v :: vs, k, ret, w =>
    match FromJSON J w interactor v with
    | .panicked w1 msg => .panicked w1 msg
    | .returned w1 _ (some err) => .returned w1 ret (some err)
    | .returned w1 vv none => retrieveLoop J interactor vs (k + 1) (ret.set k (some vv)) w1

/-- Method `inter.retrieve`.  The slice is `none` when nil; an entry is `none`
when it is the nil interface. -/
def retrieve (J : Json) (i : inter) (w : World) (interactor : ApiType) (path : String)
    (single : Bool) : Run (Option (List (Option ApiType))) :=
  match i.Get w (i.baseUrl ++ path) with
  | (w1, .error err) => .returned w1 none (some err)
  | (w1, .ok resp) =>
    match statusToError resp.StatusCode with
    | some err => .returned w1 none (some err)
    | none =>
      if single then
        match resp.Body with
        | .error err => .returned w1 none (some (.wrapf "could not read entire body; " err))
        | .ok bts =>
          match FromJSON J w1 interactor bts with
          | .panicked w2 msg => .panicked w2 msg
          | .returned w2 v err => .returned w2 (some [some v]) err
      else
        match resp.Body with
        | .error err => .returned w1 none (some err)
        | .ok bts =>
          match J.decodeRawMessages bts with
          | .error err => .returned w1 none (some err)
          | .ok temp =>
            match retrieveLoop J interactor temp 0 (List.replicate temp.length none) w1 with
            | .panicked w2 msg => .panicked w2 msg
            | .returned w2 ret err => .returned w2 (some ret) err

/-- Method `inter.GetObjects`. -/
def GetObjects (J : Json) (i : inter) (w : World) (interactor : ApiType) :
    Run (Option (List (Option ApiType))) :=
  retrieve J i w interactor (toPath i interactor) false

/-- Method `inter.GetObject`. -/
def GetObject (J : Json) (i : inter) (w : World) (interactor : ApiType) (id : String) :
    Run (Option ApiType) :=
  match retrieve J i w interactor (toPath i interactor ++ id) true with
  | .panicked w1 msg => .panicked w1 msg
  | .returned w1 _ (some err) => .returned w1 none (some (.wrapf "could not retrieve; " err))
  | .returned w1 objs none =>
    match objs.getD [] with
    | [obj] => .returned w1 obj none
    | l => .returned w1 none (some (.errorf
        ("incorrect number of objects found, expected 1, got: " ++ toString l.length)))

/-- The loop of `Contests` that casts each object to `Contest`. -/
def castContests : List (Option ApiType) → Nat → List Contest → List Contest × Option GoError
  | [], _, ret => (ret, none)
  | v :: vs, k, ret =>
    match v with
    | some (.contest vv) => castContests vs (k + 1) (ret.set k vv)
    | _ => (ret, some (.errorf
        ("unexpected type found, expected contest, got: " ++ typeName v)))

/-- Method `inter.Contests`. -/
def Contests (J : Json) (i : inter) (w : World) : Run (Option (List Contest)) :=
  match GetObjects J i w (.contest Contest.zero) with
  | .panicked w1 msg => .panicked w1 msg
  | .returned w1 _ (some err) =>
    .returned w1 none (some (.wrapf "could not retrieve contests; " err))
  | .returned w1 obj none =>
    .returned w1
      (some (castContests (obj.getD []) 0 (List.replicate (obj.getD []).length Contest.zero)).1)
      (castContests (obj.getD []) 0 (List.replicate (obj.getD []).length Contest.zero)).2

/-- The loop of `ContestById` over the listed contests. -/
def scanContests (contestId : String) : List Contest → Contest × Option GoError
  | [] => (Contest.zero, some .errNotFound)
  | v :: vs => if v.Id = contestId then (v, none) else scanContests contestId vs

/-- Method `inter.ContestById`. -/
def ContestById (J : Json) (i : inter) (w : World) (contestId : String) : Run Contest :=
  match Contests J i w with
  | .panicked w1 msg => .panicked w1 msg
  | .returned w1 _ (some _) =>
    .returned w1 Contest.zero (some (.errorf "could not retrieve contest"))
  | .returned w1 contests none =>
    .returned w1 (scanContests contestId (contests.getD [])).1
      (scanContests contestId (contests.getD [])).2

/-- Method `inter.ProblemById`. -/
def ProblemById (J : Json) (i : inter) (w : World) (problemId : String) : Run Problem :=
  match GetObject J i w (.problem Problem.zero) problemId with
  | .panicked w1 msg => .panicked w1 msg
  | .returned w1 _ (some err) =>
    .returned w1 Problem.zero (some (.wrapf "could not retrieve problem; " err))
  | .returned w1 obj none =>
    match obj with
    | some (.problem vv) => .returned w1 vv none
    | _ => .returned w1 Problem.zero (some (.errorf
        ("unexpected type found, expected problem, got: " ++ typeName obj)))

/-- Method `inter.postToId`.  Its last statement returns `returnedId`
together with the result of `Decode(&returnedId)`; the identifier returned is
the one the call has stored. -/
def postToId (J : Json) (i : inter) (w : World) (path : String) (encodableBody : ApiType) :
    World × Identifier × Option GoError :=
  match J.encode encodableBody with
  | .error err => (w, [], some (.wrapf "could not marshal body; " err))
  | .ok buf =>
    match i.Post w (i.baseUrl ++ path) "application/json" buf with
    | (w1, .error err) => (w1, [], some (.wrapf "could not post request; " err))
    | (w1, .ok resp) =>
      match statusToError resp.StatusCode with
      | some err => (w1, [], some err)
      | none =>
        match resp.Body with
        | .error err => (w1, [], some err)
        | .ok bts =>
          match J.nextValue bts with
          | .error err => (w1, [], some err)
          | .ok raw => (w1, Identifier.UnmarshalJSON raw.data)

/-- Method `inter.Submit`. -/
def Submit (J : Json) (i : inter) (w : World) (s : ApiType) : World × Identifier × Option GoError :=
  postToId J i w (contestPath i s.Path) s

/-- Method `inter.PostClarification`. -/
def PostClarification (J : Json) (i : inter) (w : World) (problemId text : String) :
    World × Identifier × Option GoError :=
  postToId J i w (contestPath i "clarifications")
    (.clarification { Clarification.zero with ProblemId := problemId, Text := text })

/-! ## `interactor.go` -/

/-- What a call of `ToContest` leaves behind and returns. -/
structure Switched where
  /-- The world after the call. -/
  world : World
  /-- The struct the pointer receiver points to, after the call. -/
  receiver : inter
  /-- The returned `ContestApi`: the receiver itself, or `none` for nil. -/
  api : Option inter
  /-- The returned error. -/
  err : Option GoError
  /-- The message of the panic when the call did not return. -/
  panicMsg : Option String

/-- Method `(*inter).ToContest`. -/
def ToContest (J : Json) (i : inter) (w : World) (cid : String) : Switched :=
  let i1 := { i with contestId := cid }
  match ContestById J i1 w cid with
  | .panicked w1 msg => ⟨w1, i1, none, none, some msg⟩
  | .returned w1 _ (some err) =>
    ⟨w1, i1, none, some (.wrapf "contest could not be found; " err), none⟩
  | .returned w1 _ none => ⟨w1, i1, some i1, none, none⟩

/-- Function `ContestInteractor`; the flag `insecure` only configures the
transport. -/
def ContestInteractor (J : Json) (w : World) (baseUrl username password contestId : String) :
    Run (Option inter) :=
  let i : inter := ⟨contestId, username, password, String.mk (trimRight baseUrl.data ['/']) ++ "/"⟩
  match ContestById J i w contestId with
  | .panicked w1 msg => .panicked w1 msg
  | .returned w1 _ (some err) => .returned w1 none (some (.wrapf "could not find contest; " err))
  | .returned w1 _ none => .returned w1 (some i) none

/-- Function `ContestsInteractor`. -/
def ContestsInteractor (baseUrl username password : String) : Option inter × Option GoError :=
  (some ⟨"", username, password, String.mk (trimRight baseUrl.data ['/']) ++ "/"⟩, none)

/-! ## The duration texts of the wire format

The shape `[-]H[H]:MM:SS[.mmm]`, as the wire format words it; the decoder
above does not use these definitions. -/

/-- The value of the decimal digit `c`. -/
def dv (c : Char) : Int := (c.toNat : Int) - 48

/-- The number a run of decimal digits writes. -/
def decimalValue (ds : List Char) : Int :=
  ds.foldl (fun acc c => acc * 10 + dv c) 0

/-- The text `[-]H[H]:MM:SS[.mmm]` with the given fields; an empty `frac`
stands for a text without milliseconds. -/
def relTimeText (neg : Bool) (hh mm ss frac : List Char) : List Char :=
  (if neg then ['-'] else []) ++ hh ++ ':' :: mm ++ ':' :: ss ++
    (if frac = [] then [] else '.' :: frac)

/-- The fields of a duration text of the wire format: one or two digits of
hours, two of minutes, two of seconds, and none or three of milliseconds. -/
def WellShaped (hh mm ss frac : List Char) : Prop :=
  (hh.length = 1 ∨ hh.length = 2) ∧ mm.length = 2 ∧ ss.length = 2 ∧
  (frac.length = 0 ∨ frac.length = 3) ∧
  (∀ c ∈ hh, '0' ≤ c ∧ c ≤ '9') ∧ (∀ c ∈ mm, '0' ≤ c ∧ c ≤ '9') ∧
  (∀ c ∈ ss, '0' ≤ c ∧ c ≤ '9') ∧ (∀ c ∈ frac, '0' ≤ c ∧ c ≤ '9')

instance (hh mm ss frac : List Char) : Decidable (WellShaped hh mm ss frac) := by
  unfold WellShaped
  infer_instance

/-! ## Fixtures

A small stand-in for the libraries and a peer, to run the operations on
concrete inputs.  In its notation an array is `e1,e2,...`, an object is
`key=value;key=value;...`, and a raw value stands for itself. -/

/-- The fields of a text between the separators `sep`, `acc` being the field
read so far; an empty text has no field. -/
def splitOnChar (sep : Char) : List Char → List Char → List (List Char)
  | [], [] => []
  | [], acc => [acc]
  | c :: cs, acc =>
    if c = sep then acc :: splitOnChar sep cs [] else splitOnChar sep cs (acc ++ [c])

/-- The key and the value of `key=value`; `none` for a text without `=`. -/
def keyValue : List Char → List Char → Option (String × String)
  | [], _ => none
  | c :: cs, acc => if c = '=' then some (String.mk acc, String.mk cs) else keyValue cs (acc ++ [c])

/-- The members of `key=value;...`; an error when one has no `=`. -/
def demoMembers : List (List Char) → Except GoError (List (String × String))
  | [] => .ok []
  | m :: ms =>
    match keyValue m [], demoMembers ms with
    | some kv, .ok rest => .ok (kv :: rest)
    | none, _ => .error (.external "invalid character")
    | _, .error err => .error err

/-- A stand-in for the libraries. -/
def demoJson : Json where
  members data := demoMembers (splitOnChar ';' data.data [])
  keyEq key tag := decide (key = tag)
  stringValue raw := .ok raw
  intValue raw :=
    match ParseInt raw.data with
    | .ok n => .ok n
    | .error err => .error err
  decodeRawMessages body := .ok ((splitOnChar ',' body.data []).map String.mk)
  encode v := .ok ("body of " ++ v.Path)
  nextValue body := .ok body
  timeParse _ value := if value = "1970-01-01T00:00:00Z".data then some 1 else none

/-- A peer that answers every request with the given status and body. -/
def constServer (status : Int) (body : String) : List Request → Request → Except GoError Response :=
  fun _ _ => .ok ⟨status, .ok body⟩

/-- A world whose peer answers every request with the given status and body. -/
def constWorld (status : Int) (body : String) : World := ⟨constServer status body, [], []⟩

/-- A handle for the contest `c1` at `http://h/`. -/
def demoInter : inter := ⟨"c1", "u", "p", "http://h/"⟩

/-- A handle at `http://h/` with no contest selected. -/
def rootInter : inter := ⟨"", "u", "p", "http://h/"⟩

/-- Whether an `error` interface value is, or wraps, the sentinel `target`:
`err != nil && errors.Is(err, target)`. -/
def isKind (err : Option GoError) (target : GoError) : Bool :=
  match err with
  | none => false
  | some e => errorsIs e target

/-! ## The duration codec on the texts of the wire format -/

/-- A decimal digit differs from every rune that is not one. -/
theorem digit_ne (c d : Char) (h : '0' ≤ c ∧ c ≤ '9') (hd : ¬ ('0' ≤ d ∧ d ≤ '9')) : c ≠ d := by
  rintro rfl
  exact hd h

/-- The value and the code point of a decimal digit. -/
theorem digitVal_digit (c : Char) (h : '0' ≤ c ∧ c ≤ '9') :
    digitVal c = some (c.toNat - 48) ∧ 48 ≤ c.toNat ∧ c.toNat ≤ 57 := by
  have h1 : '0'.val ≤ c.val := h.1
  have h2 : c.val ≤ '9'.val := h.2
  have h3 : 48 ≤ c.toNat := h1
  have h4 : c.toNat ≤ 57 := h2
  exact ⟨by simp [digitVal, h], h3, h4⟩

/-- A digit is worth between 0 and 9. -/
theorem dv_bounds (c : Char) (h : '0' ≤ c ∧ c ≤ '9') : 0 ≤ dv c ∧ dv c ≤ 9 := by
  obtain ⟨_, h3, h4⟩ := digitVal_digit c h
  unfold dv
  omega

/-- `ParseInt` on one digit. -/
theorem ParseInt_one (a : Char) (ha : '0' ≤ a ∧ a ≤ '9') : ParseInt [a] = .ok (dv a) := by
  obtain ⟨va, la, ua⟩ := digitVal_digit a ha
  have n1 := digit_ne a '-' ha (by decide)
  have n2 := digit_ne a '+' ha (by decide)
  simp only [ParseInt, parseDigits, n1, n2, va, or_self, if_false, decide_False,
    Bool.false_eq_true, zero_mul, zero_add]
  rw [if_pos (by omega)]
  congr 1
  unfold dv
  omega

/-- `ParseInt` on two digits. -/
theorem ParseInt_two (a b : Char) (ha : '0' ≤ a ∧ a ≤ '9') (hb : '0' ≤ b ∧ b ≤ '9') :
    ParseInt [a, b] = .ok (dv a * 10 + dv b) := by
  obtain ⟨va, la, ua⟩ := digitVal_digit a ha
  obtain ⟨vb, lb, ub⟩ := digitVal_digit b hb
  have n1 := digit_ne a '-' ha (by decide)
  have n2 := digit_ne a '+' ha (by decide)
  simp only [ParseInt, parseDigits, n1, n2, va, vb, or_self, if_false, decide_False,
    Bool.false_eq_true, zero_mul, zero_add]
  rw [if_pos (by omega)]
  congr 1
  unfold dv
  omega

/-- `ParseInt` on three digits. -/
theorem ParseInt_three (a b c : Char) (ha : '0' ≤ a ∧ a ≤ '9') (hb : '0' ≤ b ∧ b ≤ '9')
    (hc : '0' ≤ c ∧ c ≤ '9') :
    ParseInt [a, b, c] = .ok ((dv a * 10 + dv b) * 10 + dv c) := by
  obtain ⟨va, la, ua⟩ := digitVal_digit a ha
  obtain ⟨vb, lb, ub⟩ := digitVal_digit b hb
  obtain ⟨vc, lc, uc⟩ := digitVal_digit c hc
  have n1 := digit_ne a '-' ha (by decide)
  have n2 := digit_ne a '+' ha (by decide)
  simp only [ParseInt, parseDigits, n1, n2, va, vb, vc, or_self, if_false, decide_False,
    Bool.false_eq_true, zero_mul, zero_add]
  rw [if_pos (by omega)]
  congr 1
  unfold dv
  omega

/-- `ParseInt` on a minus sign and one digit. -/
theorem ParseInt_minus_one (a : Char) (ha : '0' ≤ a ∧ a ≤ '9') :
    ParseInt ['-', a] = .ok (-(dv a)) := by
  obtain ⟨va, la, ua⟩ := digitVal_digit a ha
  simp only [ParseInt, parseDigits, va, or_true, if_true, decide_True, zero_mul, zero_add]
  rw [if_pos (by omega)]
  congr 1
  unfold dv
  omega

/-- `ParseInt` on a minus sign and two digits. -/
theorem ParseInt_minus_two (a b : Char) (ha : '0' ≤ a ∧ a ≤ '9') (hb : '0' ≤ b ∧ b ≤ '9') :
    ParseInt ['-', a, b] = .ok (-(dv a * 10 + dv b)) := by
  obtain ⟨va, la, ua⟩ := digitVal_digit a ha
  obtain ⟨vb, lb, ub⟩ := digitVal_digit b hb
  simp only [ParseInt, parseDigits, va, vb, or_true, if_true, decide_True, zero_mul, zero_add]
  rw [if_pos (by omega)]
  congr 1
  unfold dv
  omega
  

/-- An integer in the range of `int64` is not changed by the wrap-around. -/
theorem wrap64_small (x : Int) (h1 : -(2 ^ 63) ≤ x) (h2 : x < 2 ^ 63) : wrap64 x = x := by
  unfold wrap64
  omega

/-- The sum of `UnmarshalJSON` does not overflow on fields of at most two,
two, two and three digits. -/
theorem fold_small (h m s ms : Int) (hh : -99 ≤ h ∧ h ≤ 99) (hm : 0 ≤ m ∧ m ≤ 99)
    (hs : 0 ≤ s ∧ s ≤ 99) (hms : 0 ≤ ms ∧ ms ≤ 999) :
    wrap64 (wrap64 (wrap64 (wrap64 (h * Hour) + wrap64 (m * Minute)) + wrap64 (s * Second))
      + wrap64 (ms * Millisecond))
      = (h * 3600000 + m * 60000 + s * 1000 + ms) * 1000000 := by
  have eH : Hour = 3600000000000 := by decide
  have eM : Minute = 60000000000 := by decide
  have eS : Second = 1000000000 := by decide
  have eL : Millisecond = 1000000 := by decide
  rw [eH, eM, eS, eL]
  rw [wrap64_small (h * 3600000000000) (by omega) (by omega),
    wrap64_small (m * 60000000000) (by omega) (by omega),
    wrap64_small (s * 1000000000) (by omega) (by omega),
    wrap64_small (ms * 1000000) (by omega) (by omega),
    wrap64_small (h * 3600000000000 + m * 60000000000) (by omega) (by omega),
    wrap64_small (h * 3600000000000 + m * 60000000000 + s * 1000000000) (by omega) (by omega),
    wrap64_small _ (by omega) (by omega)]
  omega

/-- The decoder, given the outcome of each of its steps. -/
theorem UnmarshalJSON_of_steps (b data g0 g1 g2 g3 g4 g5 : List Char) (h m s ms : Int)
    (htrim : trim b ['"'] = data) (hnull : data ≠ "null".data)
    (hfind : FindStringSubmatch relTimeRe 5 data = some [g0, g1, g2, g3, g4, g5])
    (h1 : ParseInt g1 = .ok h) (h2 : ParseInt g2 = .ok m) (h3 : ParseInt g3 = .ok s)
    (h5 : (if g5 ≠ [] then ParseInt g5 else .ok 0) = .ok ms) :
    ApiRelTime.UnmarshalJSON b
      = .ok (wrap64 (wrap64 (wrap64 (wrap64 (h * Hour) + wrap64 (m * Minute))
          + wrap64 (s * Second)) + wrap64 (ms * Millisecond))) := by
  unfold ApiRelTime.UnmarshalJSON
  simp only [htrim, hnull, if_false, hfind, index, List.get?, h1, h2, h3, h5]

/-- What a decimal digit is not. -/
theorem digit_not (c : Char) (h : '0' ≤ c ∧ c ≤ '9') :
    c ≠ '-' ∧ c ≠ '"' ∧ c ≠ 'n' ∧ c ≠ '+' :=
  ⟨digit_ne c _ h (by decide), digit_ne c _ h (by decide), digit_ne c _ h (by decide),
    digit_ne c _ h (by decide)⟩

/-- `ParseInt` on a field of two digits, and the range of its value. -/
theorem parse_two_digits (l : List Char) (hlen : l.length = 2) (hd : ∀ c ∈ l, '0' ≤ c ∧ c ≤ '9') :
    ParseInt l = .ok (decimalValue l) ∧ 0 ≤ decimalValue l ∧ decimalValue l ≤ 99 := by
  obtain ⟨a, b, rfl⟩ := List.length_eq_two.mp hlen
  have ha := hd a (by simp)
  have hb := hd b (by simp)
  have ba := dv_bounds a ha
  have bb := dv_bounds b hb
  refine ⟨by simpa [decimalValue] using ParseInt_two a b ha hb, ?_, ?_⟩ <;>
    simp only [decimalValue, List.foldl] <;> omega

/-- `ParseInt` on the hours group: the sign belongs to the number parsed. -/
theorem parse_hours (neg : Bool) (hh : List Char) (hlen : hh.length = 1 ∨ hh.length = 2)
    (hd : ∀ c ∈ hh, '0' ≤ c ∧ c ≤ '9') :
    ParseInt ((if neg then ['-'] else []) ++ hh)
      = .ok (if neg then -(decimalValue hh) else decimalValue hh) ∧
    0 ≤ decimalValue hh ∧ decimalValue hh ≤ 99 := by
  rcases hlen with h1 | h2
  · obtain ⟨a, rfl⟩ := List.length_eq_one.mp h1
    have ha := hd a (by simp)
    have ba := dv_bounds a ha
    refine ⟨?_, ?_, ?_⟩
    · cases neg
      · simpa [decimalValue] using ParseInt_one a ha
      · simpa [decimalValue] using ParseInt_minus_one a ha
    all_goals simp only [decimalValue, List.foldl]; omega
  · obtain ⟨a, b, rfl⟩ := List.length_eq_two.mp h2
    have ha := hd a (by simp)
    have hb := hd b (by simp)
    have ba := dv_bounds a ha
    have bb := dv_bounds b hb
    refine ⟨?_, ?_, ?_⟩
    · cases neg
      · simpa [decimalValue] using ParseInt_two a b ha hb
      · simpa [decimalValue] using ParseInt_minus_two a b ha hb
    all_goals simp only [decimalValue, List.foldl]; omega

/-- The milliseconds: 0 when the group is empty, else its three digits. -/
theorem parse_frac (frac : List Char) (hlen : frac.length = 0 ∨ frac.length = 3)
    (hd : ∀ c ∈ frac, '0' ≤ c ∧ c ≤ '9') :
    (if frac ≠ [] then ParseInt frac else .ok 0) = .ok (decimalValue frac) ∧
    0 ≤ decimalValue frac ∧ decimalValue frac ≤ 999 := by
  rcases hlen with h0 | h3
  · obtain rfl := List.length_eq_zero.mp h0
    simp [decimalValue]
  · obtain ⟨a, b, c, rfl⟩ := List.length_eq_three.mp h3
    have ha := hd a (by simp)
    have hb := hd b (by simp)
    have hc := hd c (by simp)
    have ba := dv_bounds a ha
    have bb := dv_bounds b hb
    have bc := dv_bounds c hc
    refine ⟨by simpa [decimalValue] using ParseInt_three a b c ha hb hc, ?_, ?_⟩ <;>
      simp only [decimalValue, List.foldl] <;> omega

/-- On a text of the wire format the quotes are trimmed, the text is not
`null`, and the pattern matches the whole text with the fields as groups. -/
theorem find_shape (neg : Bool) (hh mm ss frac : List Char) (hw : WellShaped hh mm ss frac) :
    trim ('"' :: relTimeText neg hh mm ss frac ++ ['"']) ['"'] = relTimeText neg hh mm ss frac ∧
    relTimeText neg hh mm ss frac ≠ "null".data ∧
    FindStringSubmatch relTimeRe 5 (relTimeText neg hh mm ss frac)
      = some [relTimeText neg hh mm ss frac, (if neg then ['-'] else []) ++ hh, mm, ss,
          (if frac = [] then [] else '.' :: frac), frac] := by
  obtain ⟨hhh, hmm, hss, hfrac, dh, dm, ds, df⟩ := hw
  obtain ⟨m1, m2, rfl⟩ := List.length_eq_two.mp hmm
  obtain ⟨s1, s2, rfl⟩ := List.length_eq_two.mp hss
  have hm1 := dm m1 (by simp)
  have hm2 := dm m2 (by simp)
  have hs1 := ds s1 (by simp)
  have hs2 := ds s2 (by simp)
  have ns2 := (digit_not s2 hs2).2.1
  rcases hhh with h1 | h2
  · obtain ⟨a, rfl⟩ := List.length_eq_one.mp h1
    have ha := dh a (by simp)
    obtain ⟨na1, na2, na3, _⟩ := digit_not a ha
    rcases hfrac with e0 | e3
    · obtain rfl := List.length_eq_zero.mp e0
      cases neg <;>
        simp [relTimeText, trim, trimLeft, trimRight, FindStringSubmatch, relTimeRe, Re.run,
          Re.oneOrTwo, Re.two, Re.three, ha, hm1, hm2, hs1, hs2, na1, na2, na3, ns2]
    · obtain ⟨f1, f2, f3, rfl⟩ := List.length_eq_three.mp e3
      have hf1 := df f1 (by simp)
      have hf2 := df f2 (by simp)
      have hf3 := df f3 (by simp)
      have nf3 := (digit_not f3 hf3).2.1
      cases neg <;>
        simp [relTimeText, trim, trimLeft, trimRight, FindStringSubmatch, relTimeRe, Re.run,
          Re.oneOrTwo, Re.two, Re.three, ha, hm1, hm2, hs1, hs2, na1, na2, na3, ns2,
          hf1, hf2, hf3, nf3]
  · obtain ⟨a, b, rfl⟩ := List.length_eq_two.mp h2
    have ha := dh a (by simp)
    have hb := dh b (by simp)
    obtain ⟨na1, na2, na3, _⟩ := digit_not a ha
    rcases hfrac with e0 | e3
    · obtain rfl := List.length_eq_zero.mp e0
      cases neg <;>
        simp [relTimeText, trim, trimLeft, trimRight, FindStringSubmatch, relTimeRe, Re.run,
          Re.oneOrTwo, Re.two, Re.three, ha, hb, hm1, hm2, hs1, hs2, na1, na2, na3, ns2]
    · obtain ⟨f1, f2, f3, rfl⟩ := List.length_eq_three.mp e3
      have hf1 := df f1 (by simp)
      have hf2 := df f2 (by simp)
      have hf3 := df f3 (by simp)
      have nf3 := (digit_not f3 hf3).2.1
      cases neg <;>
        simp [relTimeText, trim, trimLeft, trimRight, FindStringSubmatch, relTimeRe, Re.run,
          Re.oneOrTwo, Re.two, Re.three, ha, hb, hm1, hm2, hs1, hs2, na1, na2, na3, ns2,
          hf1, hf2, hf3, nf3]

/-- On every quoted text of the shape `[-]H[H]:MM:SS[.mmm]` the decoder
succeeds.  The duration, in nanoseconds, is the sum of the hours, minutes,
seconds and milliseconds, of which the hours alone carry the sign of the
text. -/
theorem relTime_decodes_shape (neg : Bool) (hh mm ss frac : List Char)
    (hw : WellShaped hh mm ss frac) :
    ApiRelTime.UnmarshalJSON ('"' :: relTimeText neg hh mm ss frac ++ ['"'])
      = .ok (((if neg then -(decimalValue hh) else decimalValue hh) * 3600000
          + decimalValue mm * 60000 + decimalValue ss * 1000 + decimalValue frac) * 1000000) := by
  obtain ⟨htrim, hnull, hfind⟩ := find_shape neg hh mm ss frac hw
  obtain ⟨hhh, hmm, hss, hfrac, dh, dm, ds, df⟩ := hw
  obtain ⟨ph, bh1, bh2⟩ := parse_hours neg hh hhh dh
  obtain ⟨pm, bm1, bm2⟩ := parse_two_digits mm hmm dm
  obtain ⟨ps, bs1, bs2⟩ := parse_two_digits ss hss ds
  obtain ⟨pf, bf1, bf2⟩ := parse_frac frac hfrac df
  rw [UnmarshalJSON_of_steps _ _ _ _ _ _ _ _ _ _ _ _ htrim hnull hfind ph pm ps pf]
  rw [fold_small _ _ _ _ (by cases neg <;> simp <;> omega) ⟨bm1, bm2⟩ ⟨bs1, bs2⟩ ⟨bf1, bf2⟩]

/-! ## The duration codec on concrete texts -/

/-- C1: the sign of the hours field is not applied to the whole duration.
`"5:00:00"` decodes to exactly five hours, but `"-1:30:00"` decodes to minus
30 minutes (the claim: minus 90 minutes) and `"-0:30:00"` to plus 30 minutes
(the claim: minus 30 minutes). -/
theorem relTime_sign_on_hours_only :
    ApiRelTime.UnmarshalJSON "\"5:00:00\"".data = .ok (5 * Hour) ∧
    ApiRelTime.millis (5 * Hour) = 5 * 3600000 + 0 * 60000 + 0 * 1000 + 0 ∧
    ApiRelTime.UnmarshalJSON "\"-1:30:00\"".data = .ok (-(30 * Minute)) ∧
    ApiRelTime.millis (-(30 * Minute)) = -1800000 ∧
    ApiRelTime.millis (-(30 * Minute)) ≠ -(1 * 3600000 + 30 * 60000 + 0 * 1000 + 0) ∧
    ApiRelTime.UnmarshalJSON "\"-0:30:00\"".data = .ok (30 * Minute) ∧
    ApiRelTime.millis (30 * Minute) = 1800000 ∧
    ApiRelTime.millis (30 * Minute) ≠ -(0 * 3600000 + 30 * 60000 + 0 * 1000 + 0) := by
  decide

/-- C2: on a text in which the duration pattern occurs nowhere the decoder
does not return: the submatch slice is nil and the index expression `sm[1]`
panics.  So it is for `abc`, quoted or not, and for the empty input. -/
theorem relTime_panics_without_match :
    ApiRelTime.UnmarshalJSON "\"abc\"".data
      = .panic "runtime error: index out of range [1] with length 0" ∧
    ApiRelTime.UnmarshalJSON "abc".data
      = .panic "runtime error: index out of range [1] with length 0" ∧
    ApiRelTime.UnmarshalJSON []
      = .panic "runtime error: index out of range [1] with length 0" ∧
    FindStringSubmatch relTimeRe 5 "abc".data = none := by
  decide

/-- C3: text that merely contains the pattern is accepted.  `"25:00:00:000"`
decodes to 25 hours (the unescaped dot takes the fourth colon),
`"1:00:00xyz"` to one hour and `"123:00:00"` to 23 hours (the pattern is not
anchored); none of them is an error. -/
theorem relTime_accepts_surrounded_text :
    ApiRelTime.UnmarshalJSON "\"25:00:00:000\"".data = .ok (25 * Hour) ∧
    ApiRelTime.UnmarshalJSON "\"1:00:00xyz\"".data = .ok (1 * Hour) ∧
    ApiRelTime.UnmarshalJSON "\"123:00:00\"".data = .ok (23 * Hour) ∧
    FindStringSubmatch relTimeRe 5 "25:00:00:000".data
      = some ["25:00:00:000".data, "25".data, "00".data, "00".data, ":000".data, "000".data] := by
  decide

/-! ## Status codes -/

/-- C4: `statusToError` gives no error for 200, `errUnauthorized` for 401,
`errNotFound` for 404, and for every other code an error that is neither of
the two, wraps neither, and whose text ends in the code in decimal.  In
`retrieve` and in `postToId` a non-nil result of it is what the call returns,
whatever the body holds and whatever the JSON functions would make of it. -/
theorem statusToError_mapping :
    statusToError 200 = none ∧
    statusToError 401 = some .errUnauthorized ∧
    statusToError 404 = some .errNotFound ∧
    (∀ status : Int, status ≠ 200 → status ≠ 401 → status ≠ 404 →
      ∃ e, statusToError status = some e ∧ e ≠ .errUnauthorized ∧ e ≠ .errNotFound ∧
        errorsIs e .errUnauthorized = false ∧ errorsIs e .errNotFound = false ∧
        e.Error = "invalid statuscode received: " ++ toString status) ∧
    (∀ (J : Json) (i : inter) (w : World) (x : ApiType) (path : String) (single : Bool)
        (resp : Response) (e : GoError),
      w.server w.log ⟨"GET", i.baseUrl ++ path, "", ""⟩ = .ok resp →
      statusToError resp.StatusCode = some e →
      retrieve J i w x path single
        = .returned (w.sent ⟨"GET", i.baseUrl ++ path, "", ""⟩) none (some e)) ∧
    (∀ (J : Json) (i : inter) (w : World) (x : ApiType) (path buf : String)
        (resp : Response) (e : GoError),
      J.encode x = .ok buf →
      w.server w.log ⟨"POST", i.baseUrl ++ path, "application/json", buf⟩ = .ok resp →
      statusToError resp.StatusCode = some e →
      postToId J i w path x
        = (w.sent ⟨"POST", i.baseUrl ++ path, "application/json", buf⟩, [], some e)) := by
  refine ⟨by decide, by decide, by decide, ?_, ?_, ?_⟩
  · intro status h1 h2 h3
    refine ⟨.errorf ("invalid statuscode received: " ++ toString status), ?_, ?_, ?_, ?_, ?_, ?_⟩
    · simp [statusToError, h1, h2, h3]
    · intro h; cases h
    · intro h; cases h
    · simp [errorsIs]
    · simp [errorsIs]
    · simp [GoError.Error]
  · intro J i w x path single resp e hsrv hst
    simp [retrieve, inter.Get, World.roundTrip, World.sent, hsrv, hst]
  · intro J i w x path buf resp e henc hsrv hst
    simp [postToId, inter.Post, World.roundTrip, World.sent, henc, hsrv, hst]

/-- C4 at concrete inputs: the codes 200, 401, 404 and 500, and a 500
response whose body would decode. -/
theorem statusToError_mapping_witness :
    statusToError 200 = none ∧
    (∃ e, statusToError 500 = some e ∧ e ≠ .errUnauthorized ∧ e ≠ .errNotFound ∧
        errorsIs e .errUnauthorized = false ∧ errorsIs e .errNotFound = false ∧
        e.Error = "invalid statuscode received: " ++ toString (500 : Int)) ∧
    retrieve demoJson demoInter (constWorld 500 "id=a,id=b") (.contest Contest.zero) "contests/"
        false
      = .returned ((constWorld 500 "id=a,id=b").sent ⟨"GET", "http://h/" ++ "contests/", "", ""⟩)
          none (some (.errorf "invalid statuscode received: 500")) ∧
    postToId demoJson demoInter (constWorld 401 "x") "submissions" (.submission Submission.zero)
      = ((constWorld 401 "x").sent
          ⟨"POST", "http://h/" ++ "submissions", "application/json", "body of submissions"⟩, [],
          some .errUnauthorized) :=
  ⟨statusToError_mapping.1,
   statusToError_mapping.2.2.2.1 500 (by decide) (by decide) (by decide),
   statusToError_mapping.2.2.2.2.1 demoJson demoInter (constWorld 500 "id=a,id=b")
     (.contest Contest.zero) "contests/" false ⟨500, .ok "id=a,id=b"⟩ _ rfl (by decide),
   statusToError_mapping.2.2.2.2.2 demoJson demoInter (constWorld 401 "x")
     (.submission Submission.zero) "submissions" "body of submissions" ⟨401, .ok "x"⟩ _ rfl rfl
     (by decide)⟩

/-! ## Looking up a contest -/

/-- The scan of `ContestById` returns the first contest with the id. -/
theorem scanContests_eq_find (cid : String) (L : List Contest) :
    scanContests cid L =
      match L.find? (fun c => decide (c.Id = cid)) with
      | some c => (c, none)
      | none => (Contest.zero, some .errNotFound) := by
  induction L with
  | nil => rfl
  | cons v vs ih =>
    by_cases h : v.Id = cid
    · simp [scanContests, h]
    · simp [scanContests, h, ih]

/-- C7: when `Contests` succeeds with the list `L`, `ContestById id` returns
the first element of `L` whose `Id` is `id`, and no error, when there is one;
it returns the zero `Contest` and `errNotFound` otherwise, and it returns
an error exactly when no element of `L` has that `Id`. -/
theorem ContestById_scans_listing (J : Json) (i : inter) (w w1 : World) (cid : String)
    (L : List Contest) (hlist : Contests J i w = .returned w1 (some L) none) :
    ContestById J i w cid =
      (match L.find? (fun c => decide (c.Id = cid)) with
       | some c => .returned w1 c none
       | none => .returned w1 Contest.zero (some .errNotFound)) ∧
    (ContestById J i w cid).panicMsg = none ∧
    ((ContestById J i w cid).err = some .errNotFound ↔ ∀ c ∈ L, c.Id ≠ cid) ∧
    ((ContestById J i w cid).err = none ↔ ∃ c ∈ L, c.Id = cid) := by
  have hrun : ContestById J i w cid =
      .returned w1 (scanContests cid L).1 (scanContests cid L).2 := by
    simp [ContestById, hlist]
  rw [hrun, scanContests_eq_find]
  cases hf : L.find? (fun c => decide (c.Id = cid)) with
  | none =>
    have hall : ∀ c ∈ L, c.Id ≠ cid := by
      intro c hc
      have := List.find?_eq_none.mp hf c hc
      simpa using this
    refine ⟨rfl, rfl, ?_, ?_⟩
    · simp only [Run.err, true_iff]
      exact hall
    · simp only [Run.err, reduceCtorEq, false_iff, not_exists, not_and]
      exact hall
  | some c =>
    have hmem := List.mem_of_find?_eq_some hf
    have hid : c.Id = cid := by simpa using List.find?_some hf
    refine ⟨rfl, rfl, ?_, ?_⟩
    · simp only [Run.err, reduceCtorEq, false_iff, not_forall]
      exact ⟨c, hmem, by simpa using hid⟩
    · simp only [Run.err, true_iff]
      exact ⟨c, hmem, hid⟩

/-- C7 on the listing of the contests `a` and `c1`: the lookup of `c1`
returns the contest `c1`, the lookup of `zz` the zero contest and
`errNotFound`. -/
theorem ContestById_scans_listing_witness :
    (ContestById demoJson demoInter (constWorld 200 "id=a,id=c1") "c1" =
      (match [{ Contest.zero with Id := "a" }, { Contest.zero with Id := "c1" }].find?
          (fun c => decide (c.Id = "c1")) with
       | some c => .returned ((constWorld 200 "id=a,id=c1").sent
            ⟨"GET", "http://h/contests/", "", ""⟩) c none
       | none => .returned ((constWorld 200 "id=a,id=c1").sent
            ⟨"GET", "http://h/contests/", "", ""⟩) Contest.zero (some .errNotFound)) ∧
     (ContestById demoJson demoInter (constWorld 200 "id=a,id=c1") "c1").panicMsg = none ∧
     ((ContestById demoJson demoInter (constWorld 200 "id=a,id=c1") "c1").err
          = some .errNotFound ↔
        ∀ c ∈ [{ Contest.zero with Id := "a" }, { Contest.zero with Id := "c1" }], c.Id ≠ "c1") ∧
     ((ContestById demoJson demoInter (constWorld 200 "id=a,id=c1") "c1").err = none ↔
        ∃ c ∈ [{ Contest.zero with Id := "a" }, { Contest.zero with Id := "c1" }], c.Id = "c1")) ∧
    (ContestById demoJson demoInter (constWorld 200 "id=a,id=c1") "c1").result
      = some ({ Contest.zero with Id := "c1" }, none) ∧
    (ContestById demoJson demoInter (constWorld 200 "id=a,id=c1") "zz").result
      = some (Contest.zero, some .errNotFound) :=
  ⟨ContestById_scans_listing demoJson demoInter (constWorld 200 "id=a,id=c1") _ "c1"
      [{ Contest.zero with Id := "a" }, { Contest.zero with Id := "c1" }] rfl,
   by decide, by decide⟩

/-! ## Error kinds -/

/-- C8: when the peer answers the contest listing with 401, `Contests`
returns an error that wraps `errUnauthorized`, and so do `ProblemById` and
`GetObject` for their own request, but `ContestById` returns the fresh error
`could not retrieve contest`, which wraps nothing; the errors of `ToContest`
and of `ContestInteractor` wrap that one, and none of the three is
recognised as `errUnauthorized`.  The same holds for 404 and `errNotFound`. -/
theorem ContestById_drops_error_kind :
    (Contests demoJson rootInter (constWorld 401 "")).err
      = some (.wrapf "could not retrieve contests; " .errUnauthorized) ∧
    isKind (Contests demoJson rootInter (constWorld 401 "")).err .errUnauthorized = true ∧
    isKind (ProblemById demoJson demoInter (constWorld 401 "") "p1").err .errUnauthorized = true ∧
    isKind (GetObject demoJson demoInter (constWorld 401 "") (.problem Problem.zero) "p1").err
      .errUnauthorized = true ∧
    (ContestById demoJson rootInter (constWorld 401 "") "c1").result
      = some (Contest.zero, some (.errorf "could not retrieve contest")) ∧
    (ContestById demoJson rootInter (constWorld 401 "") "c1").err
      = some (.errorf "could not retrieve contest") ∧
    isKind (ContestById demoJson rootInter (constWorld 401 "") "c1").err .errUnauthorized = false ∧
    (ToContest demoJson rootInter (constWorld 401 "") "c1").err
      = some (.wrapf "contest could not be found; " (.errorf "could not retrieve contest")) ∧
    isKind (ToContest demoJson rootInter (constWorld 401 "") "c1").err .errUnauthorized = false ∧
    (ContestInteractor demoJson (constWorld 401 "") "http://h" "u" "p" "c1").result
      = some (none, some (.wrapf "could not find contest; "
          (.errorf "could not retrieve contest"))) ∧
    isKind (ContestInteractor demoJson (constWorld 401 "") "http://h" "u" "p" "c1").err
      .errUnauthorized = false ∧
    isKind (Contests demoJson rootInter (constWorld 404 "")).err .errNotFound = true ∧
    isKind (ContestById demoJson rootInter (constWorld 404 "") "c1").err .errNotFound = false ∧
    (ContestById demoJson rootInter (constWorld 404 "") "c1").result
      = some (Contest.zero, some (.errorf "could not retrieve contest")) := by
  decide

/-! ## The path of a submission -/

/-- The write path and the read path of a resource never have the same
length: the two are different texts for every resource and every handle. -/
theorem contestPath_ne_toPath (i : inter) (s : ApiType) :
    i.baseUrl ++ (if i.contestId ≠ "" then "contests/" ++ i.contestId ++ "/" ++ s.Path
                  else s.Path)
      ≠ i.baseUrl ++ toPath i s := by
  intro h
  have hlen := congrArg String.length h
  have l1 : "contests/".length = 9 := by decide
  have l2 : "/".length = 1 := by decide
  have l3 : "".length = 0 := by decide
  have l4 : "contests".length = 8 := by decide
  have l5 : "problems".length = 8 := by decide
  have l6 : "submissions".length = 11 := by decide
  have l7 : "clarifications".length = 14 := by decide
  by_cases hc : i.contestId = ""
  · cases s <;>
      simp only [toPath, ApiType.Path, ApiType.InContest, hc, ne_eq, not_true_eq_false,
        if_false, if_true, String.length_append, l1, l2, l3, l4, l5, l6, l7,
        Bool.false_eq_true] at hlen <;>
      omega
  · cases s <;>
      simp only [toPath, ApiType.Path, ApiType.InContest, hc, ne_eq, not_false_eq_true,
        if_false, if_true, String.length_append, l1, l2, l3, l4, l5, l6, l7,
        Bool.false_eq_true] at hlen <;>
      omega

/-- C6, as stated, fails: for a submission and the current contest `c1`,
`Submit` posts to `http://h/contests/c1/submissions`, while `toPath` gives
`contests/c1/submissions/`, with the trailing slash; with no contest selected
`Submit` posts to `http://h/submissions` and `toPath` gives
`contests//submissions/`; and for a `Contest`, which is not contest-scoped,
`Submit` posts under `contests/c1/`. -/
theorem Submit_path_differs_from_toPath :
    (Submit demoJson demoInter (constWorld 200 "7") (.submission Submission.zero)).1.log.map
        Request.url = ["http://h/contests/c1/submissions"] ∧
    demoInter.baseUrl ++ toPath demoInter (.submission Submission.zero)
      = "http://h/contests/c1/submissions/" ∧
    (Submit demoJson rootInter (constWorld 200 "7") (.submission Submission.zero)).1.log.map
        Request.url = ["http://h/submissions"] ∧
    rootInter.baseUrl ++ toPath rootInter (.submission Submission.zero)
      = "http://h/contests//submissions/" ∧
    (Submit demoJson demoInter (constWorld 200 "7") (.contest Contest.zero)).1.log.map
        Request.url = ["http://h/contests/c1/contests"] ∧
    demoInter.baseUrl ++ toPath demoInter (.contest Contest.zero) = "http://h/contests/" ∧
    (Submit demoJson demoInter (constWorld 200 "7") (.submission Submission.zero)).1.log.map
        Request.url ≠ [demoInter.baseUrl ++ toPath demoInter (.submission Submission.zero)] := by
  decide

/-- C6, amended: when the resource encodes, `Submit s` sends exactly one
request, a POST of the encoded resource to the base URL followed by
`contestPath (s.Path())`: `contests/{currentContestId}/{s.Path()}` when the
current contest id is not empty and `{s.Path()}` when it is, with no trailing
slash and whatever `s.InContest()` says.  For every resource and every state
of the façade this is not the URL that `toPath` gives for `s`, and the one
request sent does not go there. -/
theorem Submit_posts_to_contestPath (J : Json) (i : inter) (w : World) (s : ApiType)
    (buf : String) (henc : J.encode s = .ok buf) :
    (Submit J i w s).1.log = w.log ++
      [⟨"POST",
        i.baseUrl ++ (if i.contestId ≠ "" then "contests/" ++ i.contestId ++ "/" ++ s.Path
                      else s.Path),
        "application/json", buf⟩] ∧
    i.baseUrl ++ (if i.contestId ≠ "" then "contests/" ++ i.contestId ++ "/" ++ s.Path
                  else s.Path)
      ≠ i.baseUrl ++ toPath i s ∧
    (∀ r ∈ ((Submit J i w s).1.log.drop w.log.length), r.url ≠ i.baseUrl ++ toPath i s) := by
  have hlog : (Submit J i w s).1.log = w.log ++
      [⟨"POST",
        i.baseUrl ++ (if i.contestId ≠ "" then "contests/" ++ i.contestId ++ "/" ++ s.Path
                      else s.Path),
        "application/json", buf⟩] := by
    unfold Submit postToId
    simp only [henc, inter.Post, World.roundTrip, contestPath]
    cases hsrv : w.server w.log
        ⟨"POST", i.baseUrl ++ (if i.contestId ≠ "" then
            "contests/" ++ i.contestId ++ "/" ++ s.Path else s.Path), "application/json", buf⟩ with
    | error err => rfl
    | ok resp =>
      cases hst : statusToError resp.StatusCode with
      | some err => simp [hst]
      | none =>
        cases hb : resp.Body with
        | error err => simp [hst, hb]
        | ok bts =>
          cases hv : J.nextValue bts with
          | error err => simp [hst, hb, hv]
          | ok raw => simp [hst, hb, hv]
  refine ⟨hlog, contestPath_ne_toPath i s, ?_⟩
  intro r hr
  rw [hlog, List.drop_left] at hr
  rw [List.mem_singleton] at hr
  subst hr
  exact contestPath_ne_toPath i s

/-- C6, amended, for a clarification and the current contest `c1`. -/
theorem Submit_posts_to_contestPath_witness :
    (Submit demoJson demoInter (constWorld 200 "7") (.clarification Clarification.zero)).1.log =
      (constWorld 200 "7").log ++
      [⟨"POST",
        demoInter.baseUrl ++ (if demoInter.contestId ≠ "" then
            "contests/" ++ demoInter.contestId ++ "/" ++ (ApiType.clarification Clarification.zero).Path
          else (ApiType.clarification Clarification.zero).Path),
        "application/json", "body of clarifications"⟩] ∧
    demoInter.baseUrl ++ (if demoInter.contestId ≠ "" then
        "contests/" ++ demoInter.contestId ++ "/" ++ (ApiType.clarification Clarification.zero).Path
      else (ApiType.clarification Clarification.zero).Path)
      ≠ demoInter.baseUrl ++ toPath demoInter (.clarification Clarification.zero) ∧
    (∀ r ∈ ((Submit demoJson demoInter (constWorld 200 "7")
        (.clarification Clarification.zero)).1.log.drop (constWorld 200 "7").log.length),
      r.url ≠ demoInter.baseUrl ++ toPath demoInter (.clarification Clarification.zero)) :=
  Submit_posts_to_contestPath demoJson demoInter (constWorld 200 "7")
    (.clarification Clarification.zero) "body of clarifications" rfl

/-! ## Switching the contest -/

/-- C9, as stated, fails: a handle for contest `c1` that is switched to `zz`,
which the listing of `a` and `b` does not hold, gets an error and no façade,
and its current contest id is `zz` afterwards, not `c1`. -/
theorem ToContest_no_rollback :
    demoInter.contestId = "c1" ∧
    (ToContest demoJson demoInter (constWorld 200 "id=a,id=b") "zz").err
      = some (.wrapf "contest could not be found; " .errNotFound) ∧
    (ToContest demoJson demoInter (constWorld 200 "id=a,id=b") "zz").api = none ∧
    (ToContest demoJson demoInter (constWorld 200 "id=a,id=b") "zz").panicMsg = none ∧
    (ToContest demoJson demoInter (constWorld 200 "id=a,id=b") "zz").receiver.contestId = "zz" ∧
    (ToContest demoJson demoInter (constWorld 200 "id=a,id=b") "zz").receiver.contestId
      ≠ demoInter.contestId := by
  decide

/-- C9, amended: `ToContest cid` sets the current contest id to `cid` before
it probes, and never undoes it.  If the probe `ContestById cid` fails, the
call returns no façade and the probe's error, wrapped; if it succeeds, the
call returns the receiver itself.  Either way the current contest id is `cid`
afterwards and the path of a resource resolves against `cid` when the
resource is contest-scoped. -/
theorem ToContest_sets_id_before_probe (J : Json) (i : inter) (w : World) (cid : String) :
    (ToContest J i w cid).receiver = { i with contestId := cid } ∧
    (ToContest J i w cid).receiver.contestId = cid ∧
    (∀ w1 c e, ContestById J { i with contestId := cid } w cid = .returned w1 c (some e) →
      (ToContest J i w cid).api = none ∧
      (ToContest J i w cid).err = some (.wrapf "contest could not be found; " e) ∧
      (ToContest J i w cid).panicMsg = none) ∧
    (∀ w1 c, ContestById J { i with contestId := cid } w cid = .returned w1 c none →
      (ToContest J i w cid).api = some { i with contestId := cid } ∧
      (ToContest J i w cid).err = none ∧
      (ToContest J i w cid).panicMsg = none) ∧
    (∀ x : ApiType, toPath (ToContest J i w cid).receiver x =
      (if x.InContest then "contests/" ++ cid ++ "/" else "") ++ x.Path ++ "/") := by
  have hrec : (ToContest J i w cid).receiver = { i with contestId := cid } := by
    unfold ToContest
    simp only []
    split <;> rfl
  refine ⟨hrec, by rw [hrec], ?_, ?_, ?_⟩
  · intro w1 c e he
    simp only [ToContest, he, and_self]
  · intro w1 c hn
    simp only [ToContest, hn, and_self]
  · intro x
    rw [hrec]
    rfl

/-- C9, amended, for the switch of a handle for `c1` to `zz`, unknown to the
peer, and to `b`, known to it. -/
theorem ToContest_sets_id_before_probe_witness :
    ((ToContest demoJson demoInter (constWorld 200 "id=a,id=b") "zz").api = none ∧
      (ToContest demoJson demoInter (constWorld 200 "id=a,id=b") "zz").err
        = some (.wrapf "contest could not be found; " .errNotFound) ∧
      (ToContest demoJson demoInter (constWorld 200 "id=a,id=b") "zz").panicMsg = none) ∧
    ((ToContest demoJson demoInter (constWorld 200 "id=a,id=b") "b").api
        = some { demoInter with contestId := "b" } ∧
      (ToContest demoJson demoInter (constWorld 200 "id=a,id=b") "b").err = none ∧
      (ToContest demoJson demoInter (constWorld 200 "id=a,id=b") "b").panicMsg = none) ∧
    toPath (ToContest demoJson demoInter (constWorld 200 "id=a,id=b") "b").receiver
        (.problem Problem.zero)
      = (if (ApiType.problem Problem.zero).InContest then "contests/" ++ "b" ++ "/" else "")
          ++ (ApiType.problem Problem.zero).Path ++ "/" :=
  ⟨(ToContest_sets_id_before_probe demoJson demoInter (constWorld 200 "id=a,id=b") "zz").2.2.1
      _ Contest.zero .errNotFound rfl,
   (ToContest_sets_id_before_probe demoJson demoInter (constWorld 200 "id=a,id=b") "b").2.2.2.1
      _ { Contest.zero with Id := "b" } rfl,
   (ToContest_sets_id_before_probe demoJson demoInter (constWorld 200 "id=a,id=b") "b").2.2.2.2
      (.problem Problem.zero)⟩

/-! ## Decoding a list -/

/-- Writing the first free entry of the slice under construction. -/
theorem set_first_free (pre : List (Option ApiType)) (a : ApiType) (n : Nat) :
    (pre ++ List.replicate (n + 1) none).set pre.length (some a)
      = (pre ++ [some a]) ++ List.replicate n none := by
  induction pre with
  | nil => simp [List.replicate_succ]
  | cons p ps ih => simpa using ih

/-- The loop of `retrieve` when every element decodes, to `dec v`, without
panic, error or change of the cells. -/
theorem retrieveLoop_all_decode (J : Json) (x : ApiType) (dec : String → ApiType)
    (vs : List String) :
    ∀ (pre : List (Option ApiType)) (w : World),
      (∀ v ∈ vs, ∀ w1, FromJSON J w1 x v = .returned w1 (dec v) none) →
      retrieveLoop J x vs pre.length (pre ++ List.replicate vs.length none) w
        = .returned w (pre ++ vs.map (fun v => some (dec v))) none := by
  induction vs with
  | nil => intro pre w _; simp [retrieveLoop]
  | cons v vs ih =>
    intro pre w hall
    have hv := hall v (List.mem_cons_self _ _) w
    have hrest : ∀ u ∈ vs, ∀ w1, FromJSON J w1 x u = .returned w1 (dec u) none :=
      fun u hu => hall u (List.mem_cons_of_mem _ hu)
    have hstep := ih (pre ++ [some (dec v)]) w hrest
    simp only [List.length_append, List.length_singleton] at hstep
    simp only [retrieveLoop, hv, List.length_cons, set_first_free, hstep]
    simp

/-- The loop of `retrieve` when the element after `good` is the first that
does not decode, and returns the error `e`. -/
theorem retrieveLoop_first_failure (J : Json) (x : ApiType) (dec : String → ApiType)
    (bad : String) (rest : List String) (u : ApiType) (e : GoError)
    (hbad : ∀ w1, FromJSON J w1 x bad = .returned w1 u (some e)) (good : List String) :
    ∀ (pre : List (Option ApiType)) (w : World),
      (∀ v ∈ good, ∀ w1, FromJSON J w1 x v = .returned w1 (dec v) none) →
      retrieveLoop J x (good ++ bad :: rest) pre.length
          (pre ++ List.replicate (good ++ bad :: rest).length none) w
        = .returned w (pre ++ good.map (fun v => some (dec v))
            ++ List.replicate (rest.length + 1) none) (some e) := by
  induction good with
  | nil => intro pre w _; simp [retrieveLoop, hbad]
  | cons v vs ih =>
    intro pre w hall
    have hv := hall v (List.mem_cons_self _ _) w
    have hrest : ∀ u ∈ vs, ∀ w1, FromJSON J w1 x u = .returned w1 (dec u) none :=
      fun u hu => hall u (List.mem_cons_of_mem _ hu)
    have hstep := ih (pre ++ [some (dec v)]) w hrest
    simp only [List.length_append, List.length_singleton] at hstep
    simp only [List.length_append, List.length_cons] at hstep
    have hlen : (v :: vs ++ bad :: rest).length = (vs.length + (rest.length + 1)) + 1 := by
      simp only [List.length_cons, List.length_append]
      omega
    rw [hlen]
    show retrieveLoop J x (v :: (vs ++ bad :: rest)) pre.length _ w = _
    simp only [retrieveLoop, hv, set_first_free, hstep]
    simp

/-- The list path of `retrieve` as long as no decoder panics.  For a 200
response whose body is an array of the raw elements `temp`: if every element
decodes, to `dec v`, the result is the list of the decoded elements, entry
for entry, and no error; for the empty array it is the empty, non-nil slice.
If element `k` is the first that does not decode and its decoder returns the
error `e`, the call returns `e` and a slice of the length of `temp` whose
entries before `k` are the decoded elements `0 .. k-1` and whose other
entries are nil. -/
theorem GetObjects_decodes_when_decoders_return (J : Json) (i : inter) (w : World) (x : ApiType)
    (dec : String → ApiType) (resp : Response) (bts : String) (temp : List String)
    (hsrv : w.server w.log ⟨"GET", i.baseUrl ++ toPath i x, "", ""⟩ = .ok resp)
    (hstatus : resp.StatusCode = 200) (hbody : resp.Body = .ok bts)
    (hdec : J.decodeRawMessages bts = .ok temp) :
    ((∀ v ∈ temp, ∀ w1, FromJSON J w1 x v = .returned w1 (dec v) none) →
      (GetObjects J i w x).result = some (some (temp.map (fun v => some (dec v))), none)) ∧
    (temp = [] → (GetObjects J i w x).result = some (some [], none)) ∧
    (∀ (k : Nat) (v : String) (u : ApiType) (e : GoError), temp[k]? = some v →
      (∀ w1, FromJSON J w1 x v = .returned w1 u (some e)) →
      (∀ (j : Nat) (t : String), j < k → temp[j]? = some t →
        ∀ w1, FromJSON J w1 x t = .returned w1 (dec t) none) →
      ∃ ret, (GetObjects J i w x).result = some (some ret, some e) ∧
        ret.length = temp.length ∧
        (∀ (j : Nat) (t : String), j < k → temp[j]? = some t → ret[j]? = some (some (dec t))) ∧
        (∀ j, k ≤ j → j < temp.length → ret[j]? = some none)) := by
  have hrun : GetObjects J i w x =
      match retrieveLoop J x temp 0 (List.replicate temp.length none)
          (w.sent ⟨"GET", i.baseUrl ++ toPath i x, "", ""⟩) with
      | .panicked w2 msg => .panicked w2 msg
      | .returned w2 ret err => .returned w2 (some ret) err := by
    simp [GetObjects, retrieve, inter.Get, World.roundTrip, World.sent, hsrv, hstatus,
      statusToError, hbody, hdec]
  refine ⟨?_, ?_, ?_⟩
  · intro hall
    have h := retrieveLoop_all_decode J x dec temp []
      (w.sent ⟨"GET", i.baseUrl ++ toPath i x, "", ""⟩) hall
    simp only [List.length_nil, List.nil_append] at h
    rw [hrun, h]
    rfl
  · intro hnil
    subst hnil
    rw [hrun]
    rfl
  · intro k v u e hk hv hbefore
    have hlt : k < temp.length := by
      rcases Nat.lt_or_ge k temp.length with h | h
      · exact h
      · rw [List.getElem?_eq_none h] at hk; cases hk
    have hget : temp[k] = v := by
      rw [List.getElem?_eq_getElem hlt] at hk
      exact Option.some.inj hk
    have hsplit : temp = temp.take k ++ v :: temp.drop (k + 1) := by
      rw [← hget, ← List.drop_eq_getElem_cons hlt, List.take_append_drop]
    have hgood : ∀ t ∈ temp.take k, ∀ w1, FromJSON J w1 x t = .returned w1 (dec t) none := by
      intro t ht
      obtain ⟨j, hj, rfl⟩ := List.getElem_of_mem ht
      have hjk : j < k := by
        have := hj
        simp only [List.length_take] at this
        omega
      refine hbefore j _ hjk ?_
      rw [List.getElem_take]
      exact List.getElem?_eq_getElem (by omega)
    have h := retrieveLoop_first_failure J x dec v (temp.drop (k + 1)) u e hv (temp.take k) []
      (w.sent ⟨"GET", i.baseUrl ++ toPath i x, "", ""⟩) hgood
    rw [← hsplit] at h
    simp only [List.length_nil, List.nil_append] at h
    refine ⟨_, by rw [hrun, h]; rfl, ?_, ?_, ?_⟩
    · simp only [List.length_append, List.length_map, List.length_take, List.length_replicate,
        List.length_drop]
      omega
    · intro j t hjk ht
      have hjlen : j < (List.map (fun v => some (dec v)) (List.take k temp)).length := by
        simp only [List.length_map, List.length_take]
        omega
      rw [List.getElem?_append_left hjlen, List.getElem?_map, List.getElem?_take_of_lt hjk, ht]
      rfl
    · intro j hkj hjlen
      have hlen : (List.map (fun v => some (dec v)) (List.take k temp)).length = k := by
        simp only [List.length_map, List.length_take]
        omega
      rw [List.getElem?_append_right (by omega), hlen]
      rw [List.getElem?_replicate]
      simp only [List.length_drop]
      rw [if_pos (by omega)]

/-- C5: the list path of `retrieve` does not return when an element holds a
duration in which the pattern occurs nowhere.  On the array of the contests
`a`, `b` with the duration `"abc"`, and `c`, the decoder of `b` panics in
`ApiRelTime.UnmarshalJSON`, and `GetObjects`, `Contests` and `ContestById`
panic with it: no error and no partly built slice is returned.  (An element
whose decoder returns an error, like `bad`, does give the error and the
slice, of full length, built so far; and every element is decoded into a copy
of the caller's value, whose `Name` is kept, not into a new blank one.) -/
theorem GetObjects_panics_on_malformed_duration :
    (GetObjects demoJson demoInter (constWorld 200 "id=a,id=b;duration=\"abc\",id=c")
        (.contest Contest.zero)).panicMsg
      = some "runtime error: index out of range [1] with length 0" ∧
    (GetObjects demoJson demoInter (constWorld 200 "id=a,id=b;duration=\"abc\",id=c")
        (.contest Contest.zero)).result = none ∧
    (FromJSON demoJson (constWorld 200 "") (.contest Contest.zero) "id=b;duration=\"abc\"").panicMsg
      = some "runtime error: index out of range [1] with length 0" ∧
    (Contests demoJson demoInter (constWorld 200 "id=a,id=b;duration=\"abc\",id=c")).result
      = none ∧
    (ContestById demoJson demoInter (constWorld 200 "id=a,id=b;duration=\"abc\",id=c")
        "a").result = none ∧
    (GetObjects demoJson demoInter (constWorld 200 "id=a,bad,id=c")
        (.contest Contest.zero)).result
      = some (some [some (.contest { Contest.zero with Id := "a" }), none, none],
          some (.external "invalid character")) ∧
    (GetObjects demoJson demoInter (constWorld 200 "id=a;duration=\"5:00:00\"")
        (.contest { Contest.zero with Name := "x" })).result
      = some (some [some (.contest ⟨"a", "x", "", 0, 5 * Hour⟩)], none) := by
  refine ⟨by decide, by decide, by decide, by decide, by decide, by decide, ?_⟩
  set_option maxRecDepth 8000 in decide

/-- The entries decoded from a `Clarification` whose pointer `Time` is not
nil all carry that pointer: the time of a later element overwrites the cell
that the earlier entries point to. -/
theorem GetObjects_entries_share_cell :
    (GetObjects demoJson demoInter
        { constWorld 200 "id=a,id=b;time=1970-01-01T00:00:00Z" with heap := [7] }
        (.clarification { Clarification.zero with Time := some 0 })).result
      = some (some [some (.clarification { Clarification.zero with Id := "a", Time := some 0 }),
          some (.clarification { Clarification.zero with Id := "b", Time := some 0 })], none) ∧
    (GetObjects demoJson demoInter
        { constWorld 200 "id=a,id=b;time=1970-01-01T00:00:00Z" with heap := [7] }
        (.clarification { Clarification.zero with Time := some 0 })).world.heap = [1] := by
  refine ⟨?_, ?_⟩ <;> set_option maxRecDepth 8000 in decide

/-! ## The identifier codec -/

/-- Dropping a prefix whose every rune satisfies the test. -/
theorem dropWhile_append_all (p : Char → Bool) (l s : List Char) (hl : ∀ c ∈ l, p c = true) :
    (l ++ s).dropWhile p = s.dropWhile p := by
  induction l with
  | nil => rfl
  | cons c cs ih =>
    have hc : p c = true := hl c (List.mem_cons_self _ _)
    simp only [List.cons_append, List.dropWhile_cons, hc, if_true]
    exact ih (fun d hd => hl d (List.mem_cons_of_mem _ hd))

/-- Nothing is dropped from a text whose first rune fails the test. -/
theorem dropWhile_head_fails (p : Char → Bool) (s : List Char)
    (hs : ∀ c, s.head? = some c → p c = false) : s.dropWhile p = s := by
  cases s with
  | nil => rfl
  | cons c cs =>
    have hc : p c = false := hs c rfl
    simp [List.dropWhile_cons, hc]

/-- The result of `strings.Trim` on a text wrapped in runes of the cutset. -/
theorem trim_wrapped (cutset l t r : List Char) (hl : ∀ c ∈ l, c ∈ cutset)
    (hr : ∀ c ∈ r, c ∈ cutset) (hfirst : ∀ c, t.head? = some c → c ∉ cutset)
    (hlast : ∀ c, t.getLast? = some c → c ∉ cutset) :
    trim (l ++ t ++ r) cutset = t := by
  have hright : trimRight (l ++ t ++ r) cutset = trimRight (l ++ t) cutset := by
    unfold trimRight
    rw [List.reverse_append, dropWhile_append_all]
    intro c hc
    simpa using hr c (List.mem_reverse.mp hc)
  cases t with
  | nil =>
    have hall : ∀ c ∈ (l ++ []).reverse, decide (c ∈ cutset) = true := by
      intro c hc
      simp only [List.append_nil, List.mem_reverse] at hc
      simpa using hl c hc
    unfold trim
    rw [hright]
    unfold trimRight trimLeft
    have h := dropWhile_append_all (fun c => decide (c ∈ cutset)) (l ++ []).reverse [] hall
    simp only [List.append_nil] at h
    simp only [List.append_nil, h]
    rfl
  | cons a as =>
    have hkeep : trimRight (l ++ a :: as) cutset = l ++ a :: as := by
      unfold trimRight
      rw [dropWhile_head_fails, List.reverse_reverse]
      intro c hc
      have hc1 : (a :: as).getLast? = some c := by
        rw [List.head?_reverse] at hc
        rw [List.getLast?_append_of_ne_nil l (by simp)] at hc
        exact hc
      simpa using hlast c hc1
    unfold trim
    rw [hright, hkeep]
    unfold trimLeft
    rw [dropWhile_append_all _ _ _ (by intro c hc; simpa using hl c hc)]
    apply dropWhile_head_fails
    intro c hc
    simpa using hfirst c hc

/-- C10, as stated, fails: a text in two layers of quotes loses both.
`""abc123""` and `"'abc123'"` decode to `abc123`, not to `"abc123"` and
`'abc123'`. -/
theorem Identifier_two_layers_both_stripped :
    Identifier.UnmarshalJSON "\"\"abc123\"\"".data = ("abc123".data, none) ∧
    (Identifier.UnmarshalJSON "\"\"abc123\"\"".data).1 ≠ "\"abc123\"".data ∧
    Identifier.UnmarshalJSON "\"\x27abc123\x27\"".data = ("abc123".data, none) ∧
    (Identifier.UnmarshalJSON "\"\x27abc123\x27\"".data).1 ≠ "\x27abc123\x27".data := by
  decide

/-- C10, amended: `Identifier.UnmarshalJSON` strips every leading and every
trailing quote character (`"` or the apostrophe), not one layer: for every
text `t` that neither starts nor ends with a quote character, decoding `t`
wrapped in any runs `l` and `r` of quote characters yields `t`; and the
decode never fails. -/
theorem Identifier_strips_all_quotes (l t r : List Char)
    (hl : ∀ c ∈ l, c = '"' ∨ c = '\x27') (hr : ∀ c ∈ r, c = '"' ∨ c = '\x27')
    (hfirst : ∀ c, t.head? = some c → c ≠ '"' ∧ c ≠ '\x27')
    (hlast : ∀ c, t.getLast? = some c → c ≠ '"' ∧ c ≠ '\x27') :
    Identifier.UnmarshalJSON (l ++ t ++ r) = (t, none) ∧
    ∀ bts : List Char, (Identifier.UnmarshalJSON bts).2 = none := by
  refine ⟨?_, fun _ => rfl⟩
  unfold Identifier.UnmarshalJSON
  rw [trim_wrapped]
  · intro c hc; simpa using hl c hc
  · intro c hc; simpa using hr c hc
  · intro c hc; simpa using hfirst c hc
  · intro c hc; simpa using hlast c hc

/-- C10, amended, for `abc123` between two quotes on the left and an
apostrophe and a quote on the right. -/
theorem Identifier_strips_all_quotes_witness :
    Identifier.UnmarshalJSON (['"', '"'] ++ "abc123".data ++ ['\x27', '"'])
      = ("abc123".data, none) ∧
    ∀ bts : List Char, (Identifier.UnmarshalJSON bts).2 = none :=
  Identifier_strips_all_quotes ['"', '"'] "abc123".data ['\x27', '"']
    (by decide) (by decide) (by decide) (by decide)

end Interactor

